import Mathlib

/-!
# A shallow embedding of the `fmeflowclient` Python library

This file embeds, in Lean 4, the parts of `src/fmeflowclient/__init__.py`
needed to settle the frozen claims about the library: the JSON value model,
the Python error kinds the code can raise, the `FMEFlowClient` facade (URL
normalisation and the HTTP transport `_request`), the resource managers
(`RepositoryManager`, `WorkspaceManager`, `AutomationsManager`,
`ProjectManager`, `LicensingManager`, `UserManager`) and the `User` domain
record with its role cleanup.

Conventions of the embedding:
* JSON values are the inductive `Json`; Python dicts are association lists
  with unique keys (as produced by a JSON parser), looked up by first match.
* The network is a pure function `Net` from (method, composed URL, query
  params) to (HTTP status, parsed JSON body).  `requests.request` plus
  `response.json()` is modelled by applying this function.
* Stateful code is explicit state passing.  Requests issued are accumulated
  in a trace `List Req` of (method, endpoint, params) triples, one entry per
  HTTP round trip, so that request-counting claims are statable.
* Fallible Python code returns `Except PyErr`; `response.raise_for_status`
  raises exactly when `400 ≤ status < 600`, subscripting a missing dict key
  raises `KeyError`, calling a non-callable raises `TypeError`, using a dict
  method on a non-dict raises `AttributeError`.
* `functools.cached_property` is modelled by an explicit `Option Json` cache
  slot per property: a hit returns the stored value without touching the
  network; a successful miss computes, stores and returns; a failing miss
  stores nothing and propagates the error.
-/

/-- Parsed JSON values as Python sees them after `response.json()`. -/
inductive Json where
  | null : Json
  | bool : Bool → Json
  | num : Int → Json
  | str : String → Json
  | arr : List Json → Json
  | obj : List (String × Json) → Json

mutual

/-- Boolean equality on JSON values (the nested inductive needs a manual
decidable-equality instance). -/
def Json.beq : Json → Json → Bool
  | .null, .null => true
  | .bool a, .bool b => a == b
  | .num a, .num b => a == b
  | .str a, .str b => a == b
  | .arr xs, .arr ys => Json.beqList xs ys
  | .obj xs, .obj ys => Json.beqObj xs ys
  | _, _ => false

/-- Pointwise `Json.beq` on lists. -/
def Json.beqList : List Json → List Json → Bool
  | [], [] => true
  | x :: xs, y :: ys => Json.beq x y && Json.beqList xs ys
  | _, _ => false

/-- Pointwise `Json.beq` on association lists. -/
def Json.beqObj : List (String × Json) → List (String × Json) → Bool
  | [], [] => true
  | (k, v) :: xs, (l, w) :: ys => k == l && Json.beq v w && Json.beqObj xs ys
  | _, _ => false

end

mutual

theorem Json.beq_iff : (a b : Json) → (Json.beq a b = true ↔ a = b)
  | .null, .null => by simp [Json.beq]
  | .bool a, .bool b => by simp [Json.beq]
  | .num a, .num b => by simp [Json.beq]
  | .str a, .str b => by simp [Json.beq]
  | .arr xs, .arr ys => by
    simp [Json.beq, Json.beqList_iff xs ys]
  | .obj xs, .obj ys => by
    simp [Json.beq, Json.beqObj_iff xs ys]
  | .null, .bool _ => by simp [Json.beq]
  | .null, .num _ => by simp [Json.beq]
  | .null, .str _ => by simp [Json.beq]
  | .null, .arr _ => by simp [Json.beq]
  | .null, .obj _ => by simp [Json.beq]
  | .bool _, .null => by simp [Json.beq]
  | .bool _, .num _ => by simp [Json.beq]
  | .bool _, .str _ => by simp [Json.beq]
  | .bool _, .arr _ => by simp [Json.beq]
  | .bool _, .obj _ => by simp [Json.beq]
  | .num _, .null => by simp [Json.beq]
  | .num _, .bool _ => by simp [Json.beq]
  | .num _, .str _ => by simp [Json.beq]
  | .num _, .arr _ => by simp [Json.beq]
  | .num _, .obj _ => by simp [Json.beq]
  | .str _, .null => by simp [Json.beq]
  | .str _, .bool _ => by simp [Json.beq]
  | .str _, .num _ => by simp [Json.beq]
  | .str _, .arr _ => by simp [Json.beq]
  | .str _, .obj _ => by simp [Json.beq]
  | .arr _, .null => by simp [Json.beq]
  | .arr _, .bool _ => by simp [Json.beq]
  | .arr _, .num _ => by simp [Json.beq]
  | .arr _, .str _ => by simp [Json.beq]
  | .arr _, .obj _ => by simp [Json.beq]
  | .obj _, .null => by simp [Json.beq]
  | .obj _, .bool _ => by simp [Json.beq]
  | .obj _, .num _ => by simp [Json.beq]
  | .obj _, .str _ => by simp [Json.beq]
  | .obj _, .arr _ => by simp [Json.beq]

theorem Json.beqList_iff : (xs ys : List Json) → (Json.beqList xs ys = true ↔ xs = ys)
  | [], [] => by simp [Json.beqList]
  | [], _ :: _ => by simp [Json.beqList]
  | _ :: _, [] => by simp [Json.beqList]
  | x :: xs, y :: ys => by
    simp [Json.beqList, Json.beq_iff x y, Json.beqList_iff xs ys, and_assoc]

theorem Json.beqObj_iff : (xs ys : List (String × Json)) → (Json.beqObj xs ys = true ↔ xs = ys)
  | [], [] => by simp [Json.beqObj]
  | [], _ :: _ => by simp [Json.beqObj]
  | _ :: _, [] => by simp [Json.beqObj]
  | (k, v) :: xs, (l, w) :: ys => by
    simp [Json.beqObj, Json.beq_iff v w, Json.beqObj_iff xs ys, Prod.ext_iff, and_assoc]

end

instance : DecidableEq Json := fun a b => decidable_of_iff _ (Json.beq_iff a b)

instance {ε α : Type} [DecidableEq ε] [DecidableEq α] : DecidableEq (Except ε α) := fun x y =>
  match x, y with
  | .ok a, .ok b =>
    if h : a = b then .isTrue (by rw [h])
    else .isFalse (by intro he; cases he; exact h rfl)
  | .error a, .error b =>
    if h : a = b then .isTrue (by rw [h])
    else .isFalse (by intro he; cases he; exact h rfl)
  | .ok _, .error _ => .isFalse (by intro he; cases he)
  | .error _, .ok _ => .isFalse (by intro he; cases he)

/-- The Python exception kinds the library can raise. -/
inductive PyErr where
  | http : Nat → Json → PyErr
  | keyError : String → PyErr
  | typeError : String → PyErr
  | attributeError : String → PyErr
deriving DecidableEq

/-- First-match lookup in an association list (Python dict lookup; JSON
objects produced by a parser have unique keys). -/
def alookup (kvs : List (String × Json)) (k : String) : Option Json :=
  match kvs with
  | [] => none
  | (k', v) :: rest => if k' = k then some v else alookup rest k

/-- Python truthiness of a JSON value (`if repo_name:`). -/
def Json.truthy : Json → Bool
  | .null => false
  | .bool b => b
  | .num n => n != 0
  | .str s => s != ""
  | .arr xs => !xs.isEmpty
  | .obj kvs => !kvs.isEmpty

/-- Python truthiness of an `Optional` value: `None` is falsy. -/
def pyTruthy : Option Json → Bool
  | none => false
  | some j => j.truthy

/-- `d[k]` subscripting: `KeyError` on a missing key, `TypeError` when the
value is not subscriptable by a string key. -/
def Json.getItem (j : Json) (k : String) : Except PyErr Json :=
  match j with
  | .obj kvs =>
    match alookup kvs k with
    | some v => Except.ok v
    | none => Except.error (PyErr.keyError k)
  | _ => Except.error (PyErr.typeError "object is not subscriptable")

/-- `d.get(k)`: `None`-defaulting dict lookup; `AttributeError` when the
receiver is not a dict. -/
def Json.dictGet (j : Json) (k : String) : Except PyErr (Option Json) :=
  match j with
  | .obj kvs => Except.ok (alookup kvs k)
  | _ => Except.error (PyErr.attributeError "get")

/-- `d.get(k, default)`: dict lookup with default; `AttributeError` when the
receiver is not a dict. -/
def Json.dictGetD (j : Json) (k : String) (default : Json) : Except PyErr Json :=
  match j with
  | .obj kvs => Except.ok ((alookup kvs k).getD default)
  | _ => Except.error (PyErr.attributeError "get")

/-- Iterating a JSON value Python-style: a list yields its elements, a dict
its keys, a string its characters; other values raise `TypeError`. -/
def Json.pyIter : Json → Except PyErr (List Json)
  | .arr xs => Except.ok xs
  | .obj kvs => Except.ok (kvs.map (fun kv => Json.str kv.1))
  | .str s => Except.ok (s.data.map (fun c => Json.str (String.mk [c])))
  | _ => Except.error (PyErr.typeError "object is not iterable")

/-- Calling a parsed JSON value as a function.  No value `response.json()`
can return (`None`, bool, number, string, list, dict) is callable in Python,
so this always raises `TypeError`; it models the call site `self.info()` in
`flow_version`. -/
def Json.pyCall (_ : Json) : Except PyErr Json :=
  Except.error (PyErr.typeError "object is not callable")

mutual

/-- Python `repr` of a JSON value, modulo string escaping (no claim depends
on the rendering of a container). -/
def Json.pyRepr : Json → String
  | .null => "None"
  | .bool true => "True"
  | .bool false => "False"
  | .num n => toString n
  | .str s => "\x27" ++ s ++ "\x27"
  | .arr xs => "[" ++ Json.pyReprList xs ++ "]"
  | .obj kvs => "\x7b" ++ Json.pyReprObj kvs ++ "\x7d"

/-- `repr` of list elements, comma separated. -/
def Json.pyReprList : List Json → String
  | [] => ""
  | [x] => Json.pyRepr x
  | x :: xs => Json.pyRepr x ++ ", " ++ Json.pyReprList xs

/-- `repr` of dict entries, comma separated. -/
def Json.pyReprObj : List (String × Json) → String
  | [] => ""
  | [(k, v)] => "\x27" ++ k ++ "\x27: " ++ Json.pyRepr v
  | (k, v) :: kvs => "\x27" ++ k ++ "\x27: " ++ Json.pyRepr v ++ ", " ++ Json.pyReprObj kvs

end

/-- `str(v)` as used by f-string interpolation: a string interpolates as
itself, other values through their `repr`-style rendering. -/
def Json.fstr : Json → String
  | .str s => s
  | j => j.pyRepr

/-- Python `s.startswith(pre)` (on character lists, so that concrete
instances evaluate inside the kernel). -/
def pyStartsWith (s pre : String) : Bool :=
  pre.data.isPrefixOf s.data

/-- Python `s.rstrip('/')`: drop every trailing `'/'`. -/
def pyRstripSlash (s : String) : String :=
  String.mk ((s.data.reverse.dropWhile (fun c => c = '/')).reverse)

/-- Python `s.startswith('/')`. -/
def startsWithSlash (s : String) : Bool :=
  s.data.head? = some '/'

/-- Python `s.endswith('/')`. -/
def endsWithSlash (s : String) : Bool :=
  s.data.getLast? = some '/'

/-- An HTTP request as issued by the transport: method, endpoint (as passed
to `_request`, before URL composition) and query parameters. -/
abbrev Req := String × String × List (String × String)

/-- The remote server: (method, composed URL, query params) to
(status code, parsed JSON body). -/
def Net := String → String → List (String × String) → Nat × Json

/-- Client configuration built by `FMEFlowClient.__init__`. -/
structure FMEFlowClient where
  base_url : String
  api_url : String
  token : String
  verify_ssl : Bool
deriving DecidableEq

/-- `FMEFlowClient.__init__`: stores `base_url` with trailing slashes
stripped (`base_url.rstrip('/') if base_url.endswith('/') else base_url`),
but builds `api_url` from the *argument* `base_url`, not the stripped
attribute: `api_url = base_url + '/fmerest/v3'`. -/
def FMEFlowClient.init (base_url token : String) (verify_ssl : Bool) : FMEFlowClient :=
  { base_url := if endsWithSlash base_url then pyRstripSlash base_url else base_url
    api_url := base_url ++ "/fmerest/v3"
    token := token
    verify_ssl := verify_ssl }

/-- The URL-composition lines of `FMEFlowClient._request`:
`url = api_url + endpoint if endpoint.startswith('/') else api_url + '/' + endpoint`
followed by `url = url.rstrip('/')`. -/
def FMEFlowClient.composeUrl (c : FMEFlowClient) (endpoint : String) : String :=
  let url := if startsWithSlash endpoint then c.api_url ++ endpoint
             else c.api_url ++ "/" ++ endpoint
  pyRstripSlash url

/-- `FMEFlowClient._request`: compose the URL, perform the request, raise
`requests.HTTPError` when `raise_for_status` would (status in `[400, 600)`),
otherwise return the parsed JSON body.  The issued request is appended to
the trace. -/
def FMEFlowClient.request (c : FMEFlowClient) (net : Net) (method endpoint : String)
    (params : List (String × String)) (tr : List Req) :
    Except PyErr Json × List Req :=
  let url := c.composeUrl endpoint
  let sb := net method url params
  let tr' := tr ++ [(method, endpoint, params)]
  if 400 ≤ sb.1 ∧ sb.1 < 600 then (Except.error (PyErr.http sb.1 sb.2), tr')
  else (Except.ok sb.2, tr')

/-- `FMEFlowClient._http_get`. -/
def FMEFlowClient.http_get (c : FMEFlowClient) (net : Net) (endpoint : String)
    (params : List (String × String)) (tr : List Req) :
    Except PyErr Json × List Req :=
  c.request net "GET" endpoint params tr

/-- `FMEFlowClient.healthcheck`: an uncached GET of `/healthcheck`. -/
def FMEFlowClient.healthcheck (c : FMEFlowClient) (net : Net) (tr : List Req) :
    Except PyErr Json × List Req :=
  c.http_get net "/healthcheck" [] tr

/-- The body of one `functools.cached_property` access over an explicit
cache slot: a hit returns the stored value with no network activity, a miss
runs `fetch` from an empty trace; only a successful result is stored. -/
def cachedAccess (fetch : List Req → Except PyErr Json × List Req)
    (cache : Option Json) : Except PyErr Json × Option Json × List Req :=
  match cache with
  | some v => (Except.ok v, some v, [])
  | none =>
    match fetch [] with
    | (Except.ok v, rs) => (Except.ok v, some v, rs)
    | (Except.error e, rs) => (Except.error e, none, rs)

/-- `n` successive accesses of a memoized property, collecting the value
returned by each access and every request issued across the accesses. -/
def accessN (access : Option Json → Except PyErr Json × Option Json × List Req) :
    Nat → Option Json → List (Except PyErr Json) × Option Json × List Req
  | 0, cache => ([], cache, [])
  | n + 1, cache =>
    let step := access cache
    let rest := accessN access n step.2.1
    (step.1 :: rest.1, rest.2.1, step.2.2 ++ rest.2.2)

/-- The fetch underlying `FMEFlowClient.info`: GET `/info`. -/
def FMEFlowClient.infoFetch (c : FMEFlowClient) (net : Net) (tr : List Req) :
    Except PyErr Json × List Req :=
  c.http_get net "/info" [] tr

/-- `FMEFlowClient.info`, a `functools.cached_property` over `infoFetch`. -/
def FMEFlowClient.info (c : FMEFlowClient) (net : Net) (cache : Option Json) :
    Except PyErr Json × Option Json × List Req :=
  cachedAccess (c.infoFetch net) cache

/-- The body of `FMEFlowClient.flow_version`:
`return self.info().get('build', 'UNKNOWN')`.  `self.info` is the memoized
info value (a dict); the source then *calls* it before `.get`. -/
def FMEFlowClient.flow_version_body (c : FMEFlowClient) (net : Net)
    (infoCache : Option Json) : Except PyErr Json × Option Json × List Req :=
  match c.info net infoCache with
  | (Except.error e, cache', rs) => (Except.error e, cache', rs)
  | (Except.ok v, cache', rs) =>
    match v.pyCall with
    | Except.error e => (Except.error e, cache', rs)
    | Except.ok called => (called.dictGetD "build" (Json.str "UNKNOWN"), cache', rs)

/-- `FMEFlowClient.flow_version`, itself a `functools.cached_property` over
its body; both cache slots are threaded explicitly. -/
def FMEFlowClient.flow_version (c : FMEFlowClient) (net : Net)
    (fvCache infoCache : Option Json) :
    Except PyErr Json × Option Json × Option Json × List Req :=
  match fvCache with
  | some v => (Except.ok v, some v, infoCache, [])
  | none =>
    match c.flow_version_body net infoCache with
    | (Except.ok v, infoCache', rs) => (Except.ok v, some v, infoCache', rs)
    | (Except.error e, infoCache', rs) => (Except.error e, none, infoCache', rs)

/-- `RepositoryManager.all`:
`self.client._http_get(f'{self.endpoint_base}')["items"]` with
`endpoint_base = '/repositories'`. -/
def RepositoryManager.all (c : FMEFlowClient) (net : Net) (tr : List Req) :
    Except PyErr Json × List Req :=
  match c.http_get net "/repositories" [] tr with
  | (Except.ok body, tr') => (body.getItem "items", tr')
  | (Except.error e, tr') => (Except.error e, tr')

/-- `RepositoryManager.get`:
`self.client._http_get(f'{self.endpoint_base}/{repository_name}')`. -/
def RepositoryManager.get (c : FMEFlowClient) (net : Net) (repository_name : String)
    (tr : List Req) : Except PyErr Json × List Req :=
  c.http_get net ("/repositories/" ++ repository_name) [] tr

/-- `RepositoryManager.workspaces`:
`self.client._http_get(f'{self.endpoint_base}/{repository_name}/items',
params={"type": "WORKSPACE"})["items"]`. -/
def RepositoryManager.workspaces (c : FMEFlowClient) (net : Net)
    (repository_name : String) (tr : List Req) : Except PyErr Json × List Req :=
  match c.http_get net ("/repositories/" ++ repository_name ++ "/items")
      [("type", "WORKSPACE")] tr with
  | (Except.ok body, tr') => (body.getItem "items", tr')
  | (Except.error e, tr') => (Except.error e, tr')

/-- The list comprehension shared by every `for_user`:
`[a for a in items if a.get('userName') == username]`.  A non-dict element
raises `AttributeError` at its `.get`; a missing `userName` compares as
`None == username`, which is `False` for a string `username`, and a
non-string value never equals a string. -/
def filterByUserName (username : String) : List Json → Except PyErr (List Json)
  | [] => Except.ok []
  | r :: rest =>
    match r.dictGet "userName" with
    | Except.error e => Except.error e
    | Except.ok v =>
      match filterByUserName username rest with
      | Except.error e => Except.error e
      | Except.ok tail =>
        Except.ok (if v = some (Json.str username) then r :: tail else tail)

/-- `AutomationsManager.all`:
`self.client._http_get(f'{self.endpoint_base}')["items"]` with
`endpoint_base = '/automations/workflows'`. -/
def AutomationsManager.all (c : FMEFlowClient) (net : Net) (tr : List Req) :
    Except PyErr Json × List Req :=
  match c.http_get net "/automations/workflows" [] tr with
  | (Except.ok body, tr') => (body.getItem "items", tr')
  | (Except.error e, tr') => (Except.error e, tr')

/-- `AutomationsManager.get`:
`self.client._http_get(f'{self.endpoint_base}/{workflow_id}')`. -/
def AutomationsManager.get (c : FMEFlowClient) (net : Net) (workflow_id : String)
    (tr : List Req) : Except PyErr Json × List Req :=
  c.http_get net ("/automations/workflows/" ++ workflow_id) [] tr

/-- `AutomationsManager.for_user`: filter `all()` (iterated Python-style) by
`userName == username`. -/
def AutomationsManager.for_user (c : FMEFlowClient) (net : Net) (username : String)
    (tr : List Req) : Except PyErr (List Json) × List Req :=
  match AutomationsManager.all c net tr with
  | (Except.error e, tr') => (Except.error e, tr')
  | (Except.ok body, tr') =>
    match body.pyIter with
    | Except.error e => (Except.error e, tr')
    | Except.ok items => (filterByUserName username items, tr')

/-- `ProjectManager.all`:
`self.client._http_get(f'{self.endpoint_base}/projects')["items"]` with
`endpoint_base = '/projects'`. -/
def ProjectManager.all (c : FMEFlowClient) (net : Net) (tr : List Req) :
    Except PyErr Json × List Req :=
  match c.http_get net "/projects/projects" [] tr with
  | (Except.ok body, tr') => (body.getItem "items", tr')
  | (Except.error e, tr') => (Except.error e, tr')

/-- `ProjectManager.get`:
`self.client._http_get(f'{self.endpoint_base}/projects/{project_id}')`. -/
def ProjectManager.get (c : FMEFlowClient) (net : Net) (project_id : String)
    (tr : List Req) : Except PyErr Json × List Req :=
  c.http_get net ("/projects/projects/" ++ project_id) [] tr

/-- `ProjectManager.for_user`: filter `all()` by `userName == username`. -/
def ProjectManager.for_user (c : FMEFlowClient) (net : Net) (username : String)
    (tr : List Req) : Except PyErr (List Json) × List Req :=
  match ProjectManager.all c net tr with
  | (Except.error e, tr') => (Except.error e, tr')
  | (Except.ok body, tr') =>
    match body.pyIter with
    | Except.error e => (Except.error e, tr')
    | Except.ok items => (filterByUserName username items, tr')

/-- The `for repo in repositories:` loop of `WorkspaceManager.all`:
for each repository, `repo.get('name')`; when truthy, fetch that
repository's workspace items through `RepositoryManager.workspaces` and
`extend` the accumulator with them. -/
def WorkspaceManager.allLoop (c : FMEFlowClient) (net : Net) :
    List Json → List Json → List Req → Except PyErr (List Json) × List Req
  | [], acc, tr => (Except.ok acc, tr)
  | repo :: rest, acc, tr =>
    match repo.dictGet "name" with
    | Except.error e => (Except.error e, tr)
    | Except.ok none => WorkspaceManager.allLoop c net rest acc tr
    | Except.ok (some nv) =>
      if nv.truthy then
        match RepositoryManager.workspaces c net nv.fstr tr with
        | (Except.error e, tr') => (Except.error e, tr')
        | (Except.ok ws, tr') =>
          match ws.pyIter with
          | Except.error e => (Except.error e, tr')
          | Except.ok wsList => WorkspaceManager.allLoop c net rest (acc ++ wsList) tr'
      else WorkspaceManager.allLoop c net rest acc tr

/-- `WorkspaceManager.all`: fetch all repositories, then aggregate each
truthy-named repository's workspace items in listing order. -/
def WorkspaceManager.all (c : FMEFlowClient) (net : Net) (tr : List Req) :
    Except PyErr (List Json) × List Req :=
  match RepositoryManager.all c net tr with
  | (Except.error e, tr') => (Except.error e, tr')
  | (Except.ok reposJson, tr') =>
    match reposJson.pyIter with
    | Except.error e => (Except.error e, tr')
    | Except.ok repos => WorkspaceManager.allLoop c net repos [] tr'

/-- `WorkspaceManager.for_user`: filter `all()` by `userName == username`. -/
def WorkspaceManager.for_user (c : FMEFlowClient) (net : Net) (username : String)
    (tr : List Req) : Except PyErr (List Json) × List Req :=
  match WorkspaceManager.all c net tr with
  | (Except.error e, tr') => (Except.error e, tr')
  | (Except.ok items, tr') => (filterByUserName username items, tr')

/-- The fetch underlying `LicensingManager.capabilities`:
GET `/licensing/license/capabilities`. -/
def LicensingManager.capabilitiesFetch (c : FMEFlowClient) (net : Net) (tr : List Req) :
    Except PyErr Json × List Req :=
  c.http_get net "/licensing/license/capabilities" [] tr

/-- `LicensingManager.capabilities`, a `functools.cached_property`. -/
def LicensingManager.capabilities (c : FMEFlowClient) (net : Net) (cache : Option Json) :
    Except PyErr Json × Option Json × List Req :=
  cachedAccess (LicensingManager.capabilitiesFetch c net) cache

/-- The fetch underlying `LicensingManager.status`:
GET `/licensing/license/status`. -/
def LicensingManager.statusFetch (c : FMEFlowClient) (net : Net) (tr : List Req) :
    Except PyErr Json × List Req :=
  c.http_get net "/licensing/license/status" [] tr

/-- `LicensingManager.status`, a `functools.cached_property`. -/
def LicensingManager.status (c : FMEFlowClient) (net : Net) (cache : Option Json) :
    Except PyErr Json × Option Json × List Req :=
  cachedAccess (LicensingManager.statusFetch c net) cache

/-- `User._cleanup_roles`'s list comprehension on a roles list:
`[role for role in self.roles if not role.startswith('user:')]`.  A
non-string element raises `AttributeError` at its `.startswith`. -/
def User.rolesComprehension : List Json → Except PyErr (List Json)
  | [] => Except.ok []
  | Json.str s :: rest =>
    match User.rolesComprehension rest with
    | Except.error e => Except.error e
    | Except.ok tail =>
      Except.ok (if pyStartsWith s "user:" then tail else Json.str s :: tail)
  | _ :: _ => Except.error (PyErr.attributeError "startswith")

/-- A `User` domain record: the JSON map's keys promoted to attributes
(`for attr, value in user_dict.items(): setattr(self, attr, value)`),
represented by the attribute map after construction. -/
structure User where
  attrs : List (String × Json)
deriving DecidableEq

/-- Replace the binding of `k` (the `self.roles = ...` re-assignment). -/
def setAttr (kvs : List (String × Json)) (k : String) (v : Json) :
    List (String × Json) :=
  kvs.map (fun kv => if kv.1 = k then (k, v) else kv)

/-- `User.__init__` on a parsed user dict: promote every key to an
attribute, then `_cleanup_roles` — when a `roles` attribute exists and is a
list, drop every entry that starts with `user:`. -/
def User.ofDict (kvs : List (String × Json)) : Except PyErr User :=
  match alookup kvs "roles" with
  | some (Json.arr roles) =>
    match User.rolesComprehension roles with
    | Except.error e => Except.error e
    | Except.ok roles' => Except.ok ⟨setAttr kvs "roles" (Json.arr roles')⟩
  | _ => Except.ok ⟨kvs⟩

/-- `User(user, client)` on an arbitrary JSON value: `user_dict.items()`
raises `AttributeError` unless the value is a dict. -/
def User.ofJson : Json → Except PyErr User
  | Json.obj kvs => User.ofDict kvs
  | _ => Except.error (PyErr.attributeError "items")

/-- Construct `User`s from the listed items in order, as the `for user in
...: users.append(User(user, self.client))` loop does. -/
def UserManager.buildUsers : List Json → Except PyErr (List User)
  | [] => Except.ok []
  | j :: rest =>
    match User.ofJson j with
    | Except.error e => Except.error e
    | Except.ok u =>
      match UserManager.buildUsers rest with
      | Except.error e => Except.error e
      | Except.ok us => Except.ok (u :: us)

/-- `UserManager.all`:
`self.client._http_get('/security/accounts')["items"]` iterated, each item
promoted to a `User`. -/
def UserManager.all (c : FMEFlowClient) (net : Net) (tr : List Req) :
    Except PyErr (List User) × List Req :=
  match c.http_get net "/security/accounts" [] tr with
  | (Except.error e, tr') => (Except.error e, tr')
  | (Except.ok body, tr') =>
    match body.getItem "items" with
    | Except.error e => (Except.error e, tr')
    | Except.ok items =>
      match items.pyIter with
      | Except.error e => (Except.error e, tr')
      | Except.ok xs => (UserManager.buildUsers xs, tr')

/-- Does a JSON value parse as a Python dict? -/
def Json.isObj : Json → Bool
  | .obj _ => true
  | _ => false

/-- A repository record's `name` field is either absent or a JSON string
(the shape every claim about workspace aggregation assumes). -/
def nameIsStrOrMissing (r : List (String × Json)) : Bool :=
  match alookup r "name" with
  | none => true
  | some (Json.str _) => true
  | some _ => false

/-- The repository name the aggregation loop acts on: `some s` exactly when
the record's `name` field is a non-empty string. -/
def namedRepoName (r : List (String × Json)) : Option String :=
  match alookup r "name" with
  | some (Json.str s) => if s = "" then none else some s
  | _ => none

/-- Does a record's `userName` field equal the given username (Python
`a.get('userName') == username` on a dict)? -/
def matchesUserName (username : String) (r : Json) : Bool :=
  match r with
  | .obj kvs => decide (alookup kvs "userName" = some (Json.str username))
  | _ => false

/-! ## Transport lemmas -/

theorem FMEFlowClient.http_get_eq (c : FMEFlowClient) (net : Net)
    (endpoint : String) (params : List (String × String)) (tr : List Req)
    (s : Nat) (b : Json)
    (h : net "GET" (c.composeUrl endpoint) params = (s, b)) :
    c.http_get net endpoint params tr =
      (if 400 ≤ s ∧ s < 600 then Except.error (PyErr.http s b) else Except.ok b,
        tr ++ [("GET", endpoint, params)]) := by
  simp only [FMEFlowClient.http_get, FMEFlowClient.request, h]
  split <;> rfl

theorem FMEFlowClient.http_get_ok (c : FMEFlowClient) (net : Net)
    (endpoint : String) (params : List (String × String)) (tr : List Req)
    (s : Nat) (b : Json)
    (h : net "GET" (c.composeUrl endpoint) params = (s, b))
    (hs : ¬(400 ≤ s ∧ s < 600)) :
    c.http_get net endpoint params tr =
      (Except.ok b, tr ++ [("GET", endpoint, params)]) := by
  rw [FMEFlowClient.http_get_eq c net endpoint params tr s b h, if_neg hs]

theorem FMEFlowClient.http_get_err (c : FMEFlowClient) (net : Net)
    (endpoint : String) (params : List (String × String)) (tr : List Req)
    (s : Nat) (b : Json)
    (h : net "GET" (c.composeUrl endpoint) params = (s, b))
    (hs : 400 ≤ s ∧ s < 600) :
    c.http_get net endpoint params tr =
      (Except.error (PyErr.http s b), tr ++ [("GET", endpoint, params)]) := by
  rw [FMEFlowClient.http_get_eq c net endpoint params tr s b h, if_pos hs]

/-! ## Role cleanup (C7) -/

theorem rolesComprehension_map_str (rs : List String) :
    User.rolesComprehension (rs.map Json.str) =
      Except.ok ((rs.filter (fun r => !pyStartsWith r "user:")).map Json.str) := by
  induction rs with
  | nil => rfl
  | cons r rest ih =>
    by_cases h : pyStartsWith r "user:" <;>
      simp [User.rolesComprehension, ih, List.filter_cons, h]

/-- C7: the role-cleanup transform applied at `User` construction is
idempotent — for every list of role strings, applying the `user:`-entry
strip to its own output returns that output unchanged, and a list with no
entry starting with `user:` is left completely unchanged. -/
theorem claim7_role_cleanup_idempotent (roles : List String) :
    (∀ out, User.rolesComprehension (roles.map Json.str) = Except.ok out →
      User.rolesComprehension out = Except.ok out) ∧
    ((∀ r ∈ roles, pyStartsWith r "user:" = false) →
      User.rolesComprehension (roles.map Json.str) =
        Except.ok (roles.map Json.str)) := by
  constructor
  · intro out hout
    rw [rolesComprehension_map_str] at hout
    obtain rfl : out = (roles.filter (fun r => !pyStartsWith r "user:")).map Json.str := by
      simpa using hout.symm
    rw [rolesComprehension_map_str]
    congr 1
    congr 1
    rw [List.filter_filter]
    exact List.filter_congr (by intro a ha; simp)
  · intro h
    rw [rolesComprehension_map_str]
    congr 1
    congr 1
    exact List.filter_eq_self.mpr (by intro a ha; simp [h a ha])

/-- Witness for C7 at a concrete role list. -/
theorem claim7_witness :
    User.rolesComprehension [Json.str "user:alice", Json.str "fmesuperuser"] =
      Except.ok [Json.str "fmesuperuser"] ∧
    User.rolesComprehension [Json.str "fmesuperuser"] =
      Except.ok [Json.str "fmesuperuser"] := by
  refine ⟨by decide, ?_⟩
  exact (claim7_role_cleanup_idempotent ["user:alice", "fmesuperuser"]).1
    [Json.str "fmesuperuser"] (by decide)

/-! ## Detail lookups and HTTP failures (C6) -/

/-- C6: for every detail lookup `get(id)` (repositories, projects,
automations), a non-success HTTP status makes the operation raise the
HTTP-failure error carrying that status and body, returning no record; a
success status returns the parsed JSON body. -/
theorem claim6_get_propagates_http_error (c : FMEFlowClient) (net : Net)
    (id : String) (s : Nat) (b : Json) :
    (net "GET" (c.composeUrl ("/repositories/" ++ id)) [] = (s, b) →
      400 ≤ s ∧ s < 600 →
      RepositoryManager.get c net id [] =
        (Except.error (PyErr.http s b), [("GET", "/repositories/" ++ id, [])])) ∧
    (net "GET" (c.composeUrl ("/repositories/" ++ id)) [] = (s, b) →
      ¬(400 ≤ s ∧ s < 600) →
      RepositoryManager.get c net id [] =
        (Except.ok b, [("GET", "/repositories/" ++ id, [])])) ∧
    (net "GET" (c.composeUrl ("/projects/projects/" ++ id)) [] = (s, b) →
      400 ≤ s ∧ s < 600 →
      ProjectManager.get c net id [] =
        (Except.error (PyErr.http s b), [("GET", "/projects/projects/" ++ id, [])])) ∧
    (net "GET" (c.composeUrl ("/projects/projects/" ++ id)) [] = (s, b) →
      ¬(400 ≤ s ∧ s < 600) →
      ProjectManager.get c net id [] =
        (Except.ok b, [("GET", "/projects/projects/" ++ id, [])])) ∧
    (net "GET" (c.composeUrl ("/automations/workflows/" ++ id)) [] = (s, b) →
      400 ≤ s ∧ s < 600 →
      AutomationsManager.get c net id [] =
        (Except.error (PyErr.http s b), [("GET", "/automations/workflows/" ++ id, [])])) ∧
    (net "GET" (c.composeUrl ("/automations/workflows/" ++ id)) [] = (s, b) →
      ¬(400 ≤ s ∧ s < 600) →
      AutomationsManager.get c net id [] =
        (Except.ok b, [("GET", "/automations/workflows/" ++ id, [])])) := by
  refine ⟨fun h hs => ?_, fun h hs => ?_, fun h hs => ?_,
    fun h hs => ?_, fun h hs => ?_, fun h hs => ?_⟩
  · simpa [RepositoryManager.get] using
      FMEFlowClient.http_get_err c net ("/repositories/" ++ id) [] [] s b h hs
  · simpa [RepositoryManager.get] using
      FMEFlowClient.http_get_ok c net ("/repositories/" ++ id) [] [] s b h hs
  · simpa [ProjectManager.get] using
      FMEFlowClient.http_get_err c net ("/projects/projects/" ++ id) [] [] s b h hs
  · simpa [ProjectManager.get] using
      FMEFlowClient.http_get_ok c net ("/projects/projects/" ++ id) [] [] s b h hs
  · simpa [AutomationsManager.get] using
      FMEFlowClient.http_get_err c net ("/automations/workflows/" ++ id) [] [] s b h hs
  · simpa [AutomationsManager.get] using
      FMEFlowClient.http_get_ok c net ("/automations/workflows/" ++ id) [] [] s b h hs

/-- A network stub for the C6 witness: every URL answers 404 with an error
body. -/
def netClaim6 : Net := fun _ _ _ =>
  (404, Json.obj [("message", Json.str "repository missing does not exist")])

/-- Witness for C6: against a transport answering HTTP 404, `get` returns
the `HttpError` carrying status 404. -/
theorem claim6_witness :
    RepositoryManager.get (FMEFlowClient.init "https://fme.example" "tok" true)
        netClaim6 "missing" [] =
      (Except.error (PyErr.http 404
          (Json.obj [("message", Json.str "repository missing does not exist")])),
        [("GET", "/repositories/missing", [])]) :=
  (claim6_get_propagates_http_error
      (FMEFlowClient.init "https://fme.example" "tok" true) netClaim6 "missing" 404
      (Json.obj [("message", Json.str "repository missing does not exist")])).1
    rfl (by decide)

/-! ## Missing `items` envelope (C8) -/

/-- C8: every collection operation that expects an `items` envelope fails
with a `KeyError` on `items` — not a defensive empty list — when the
(successful) response map lacks that key. -/
theorem claim8_missing_items_is_key_error (c : FMEFlowClient) (net : Net)
    (name : String) (s : Nat) (kvs : List (String × Json))
    (hs : ¬(400 ≤ s ∧ s < 600)) (hmiss : alookup kvs "items" = none) :
    (net "GET" (c.composeUrl "/repositories") [] = (s, Json.obj kvs) →
      RepositoryManager.all c net [] =
        (Except.error (PyErr.keyError "items"), [("GET", "/repositories", [])])) ∧
    (net "GET" (c.composeUrl "/projects/projects") [] = (s, Json.obj kvs) →
      ProjectManager.all c net [] =
        (Except.error (PyErr.keyError "items"), [("GET", "/projects/projects", [])])) ∧
    (net "GET" (c.composeUrl "/automations/workflows") [] = (s, Json.obj kvs) →
      AutomationsManager.all c net [] =
        (Except.error (PyErr.keyError "items"), [("GET", "/automations/workflows", [])])) ∧
    (net "GET" (c.composeUrl "/security/accounts") [] = (s, Json.obj kvs) →
      UserManager.all c net [] =
        (Except.error (PyErr.keyError "items"), [("GET", "/security/accounts", [])])) ∧
    (net "GET" (c.composeUrl ("/repositories/" ++ name ++ "/items"))
        [("type", "WORKSPACE")] = (s, Json.obj kvs) →
      RepositoryManager.workspaces c net name [] =
        (Except.error (PyErr.keyError "items"),
          [("GET", "/repositories/" ++ name ++ "/items", [("type", "WORKSPACE")])])) := by
  refine ⟨fun h => ?_, fun h => ?_, fun h => ?_, fun h => ?_, fun h => ?_⟩
  · rw [RepositoryManager.all,
      FMEFlowClient.http_get_ok c net "/repositories" [] [] s (Json.obj kvs) h hs]
    simp [Json.getItem, hmiss]
  · rw [ProjectManager.all,
      FMEFlowClient.http_get_ok c net "/projects/projects" [] [] s (Json.obj kvs) h hs]
    simp [Json.getItem, hmiss]
  · rw [AutomationsManager.all,
      FMEFlowClient.http_get_ok c net "/automations/workflows" [] [] s (Json.obj kvs) h hs]
    simp [Json.getItem, hmiss]
  · rw [UserManager.all,
      FMEFlowClient.http_get_ok c net "/security/accounts" [] [] s (Json.obj kvs) h hs]
    simp [Json.getItem, hmiss]
  · rw [RepositoryManager.workspaces,
      FMEFlowClient.http_get_ok c net ("/repositories/" ++ name ++ "/items")
        [("type", "WORKSPACE")] [] s (Json.obj kvs) h hs]
    simp [Json.getItem, hmiss]

/-- A network stub for the C8 witness: every URL answers 200 with a map
that has no `items` key. -/
def netClaim8 : Net := fun _ _ _ => (200, Json.obj [("totalCount", Json.num 0)])

/-- Witness for C8: with an `items`-less 200 response, `repositories.all()`
raises `KeyError('items')`. -/
theorem claim8_witness :
    RepositoryManager.all (FMEFlowClient.init "https://fme.example" "tok" true)
        netClaim8 [] =
      (Except.error (PyErr.keyError "items"), [("GET", "/repositories", [])]) :=
  ((claim8_missing_items_is_key_error
      (FMEFlowClient.init "https://fme.example" "tok" true) netClaim8 "r" 200
      [("totalCount", Json.num 0)] (by decide) (by decide)).1) rfl

/-! ## Memoized accessors (C5) -/

theorem cachedAccess_hit (fetch : List Req → Except PyErr Json × List Req) (v : Json) :
    cachedAccess fetch (some v) = (Except.ok v, some v, []) := rfl

theorem accessN_cachedAccess_hit (fetch : List Req → Except PyErr Json × List Req)
    (v : Json) (n : Nat) :
    accessN (cachedAccess fetch) n (some v) =
      (List.replicate n (Except.ok v), some v, []) := by
  induction n with
  | zero => rfl
  | succ m ih => simp [accessN, cachedAccess_hit, ih, List.replicate]

theorem accessN_cachedAccess_of_fetch_ok
    (fetch : List Req → Except PyErr Json × List Req) (v : Json) (rs : List Req)
    (hfetch : fetch [] = (Except.ok v, rs)) (n : Nat) (hn : 1 ≤ n) :
    accessN (cachedAccess fetch) n none =
      (List.replicate n (Except.ok v), some v, rs) := by
  obtain ⟨m, rfl⟩ : ∃ m, n = m + 1 :=
    ⟨n - 1, (Nat.succ_pred_eq_of_pos hn).symm⟩
  simp [accessN, cachedAccess, hfetch, accessN_cachedAccess_hit, List.replicate]

/-- C5: on one facade instance, each memoized accessor — license status,
license capabilities, server info — issues exactly one network request
across `n ≥ 1` accesses: every access returns the same stored value, and
the accumulated request trace of all `n` accesses is the single underlying
GET. -/
theorem claim5_memoized_single_request (c : FMEFlowClient) (net : Net) (n : Nat)
    (hn : 1 ≤ n) (s1 s2 s3 : Nat) (b1 b2 b3 : Json) :
    (net "GET" (c.composeUrl "/licensing/license/status") [] = (s1, b1) →
      ¬(400 ≤ s1 ∧ s1 < 600) →
      accessN (LicensingManager.status c net) n none =
        (List.replicate n (Except.ok b1), some b1,
          [("GET", "/licensing/license/status", [])])) ∧
    (net "GET" (c.composeUrl "/licensing/license/capabilities") [] = (s2, b2) →
      ¬(400 ≤ s2 ∧ s2 < 600) →
      accessN (LicensingManager.capabilities c net) n none =
        (List.replicate n (Except.ok b2), some b2,
          [("GET", "/licensing/license/capabilities", [])])) ∧
    (net "GET" (c.composeUrl "/info") [] = (s3, b3) →
      ¬(400 ≤ s3 ∧ s3 < 600) →
      accessN (c.info net) n none =
        (List.replicate n (Except.ok b3), some b3, [("GET", "/info", [])])) := by
  refine ⟨fun h hs => ?_, fun h hs => ?_, fun h hs => ?_⟩
  · have hfetch : LicensingManager.statusFetch c net [] =
        (Except.ok b1, [("GET", "/licensing/license/status", [])]) := by
      simpa [LicensingManager.statusFetch] using
        FMEFlowClient.http_get_ok c net "/licensing/license/status" [] [] s1 b1 h hs
    simpa [LicensingManager.status] using
      accessN_cachedAccess_of_fetch_ok (LicensingManager.statusFetch c net) b1 _ hfetch n hn
  · have hfetch : LicensingManager.capabilitiesFetch c net [] =
        (Except.ok b2, [("GET", "/licensing/license/capabilities", [])]) := by
      simpa [LicensingManager.capabilitiesFetch] using
        FMEFlowClient.http_get_ok c net "/licensing/license/capabilities" [] [] s2 b2 h hs
    simpa [LicensingManager.capabilities] using
      accessN_cachedAccess_of_fetch_ok (LicensingManager.capabilitiesFetch c net) b2 _ hfetch n hn
  · have hfetch : FMEFlowClient.infoFetch c net [] =
        (Except.ok b3, [("GET", "/info", [])]) := by
      simpa [FMEFlowClient.infoFetch] using
        FMEFlowClient.http_get_ok c net "/info" [] [] s3 b3 h hs
    simpa [FMEFlowClient.info] using
      accessN_cachedAccess_of_fetch_ok (FMEFlowClient.infoFetch c net) b3 _ hfetch n hn

/-- A network stub for the C5 witness: every URL answers 200 with a small
status map. -/
def netClaim5 : Net := fun _ _ _ => (200, Json.obj [("isLicensed", Json.bool true)])

/-- Witness for C5: three successive accesses of `licensing.status` all
return the same value and issue one single GET. -/
theorem claim5_witness :
    accessN (LicensingManager.status
        (FMEFlowClient.init "https://fme.example" "tok" true) netClaim5) 3 none =
      (List.replicate 3 (Except.ok (Json.obj [("isLicensed", Json.bool true)])),
        some (Json.obj [("isLicensed", Json.bool true)]),
        [("GET", "/licensing/license/status", [])]) :=
  ((claim5_memoized_single_request
      (FMEFlowClient.init "https://fme.example" "tok" true) netClaim5 3 (by decide)
      200 200 200 (Json.obj [("isLicensed", Json.bool true)])
      (Json.obj [("isLicensed", Json.bool true)])
      (Json.obj [("isLicensed", Json.bool true)])).1) rfl (by decide)

/-! ## `flow_version` (C2) -/

/-- C2 (code bug): whenever the `/info` request succeeds, accessing
`flow_version` on a fresh facade raises `TypeError` — the source calls the
memoized info dict (`self.info()`) before `.get('build', 'UNKNOWN')` — so
it never returns the version string or the `"UNKNOWN"` marker. -/
theorem claim2_flow_version_raises_type_error (c : FMEFlowClient) (net : Net)
    (s : Nat) (b : Json)
    (h : net "GET" (c.composeUrl "/info") [] = (s, b))
    (hs : ¬(400 ≤ s ∧ s < 600)) :
    FMEFlowClient.flow_version c net none none =
      (Except.error (PyErr.typeError "object is not callable"), none, some b,
        [("GET", "/info", [])]) := by
  have hfetch : FMEFlowClient.infoFetch c net [] =
      (Except.ok b, [("GET", "/info", [])]) := by
    simpa [FMEFlowClient.infoFetch] using
      FMEFlowClient.http_get_ok c net "/info" [] [] s b h hs
  simp [FMEFlowClient.flow_version, FMEFlowClient.flow_version_body,
    FMEFlowClient.info, cachedAccess, hfetch, Json.pyCall]

/-- A network stub for the C2 witness: `/info` answers 200 with a build
field present. -/
def netClaim2 : Net := fun _ _ _ =>
  (200, Json.obj [("build", Json.str "FME Flow 2024.1"), ("timeZone", Json.str "UTC")])

/-- Witness for C2: with a successful `/info` response carrying a `build`
field, `flow_version` still raises `TypeError`. -/
theorem claim2_witness :
    FMEFlowClient.flow_version (FMEFlowClient.init "https://fme.example" "tok" true)
        netClaim2 none none =
      (Except.error (PyErr.typeError "object is not callable"), none,
        some (Json.obj [("build", Json.str "FME Flow 2024.1"),
          ("timeZone", Json.str "UTC")]),
        [("GET", "/info", [])]) :=
  claim2_flow_version_raises_type_error
    (FMEFlowClient.init "https://fme.example" "tok" true) netClaim2 200
    (Json.obj [("build", Json.str "FME Flow 2024.1"), ("timeZone", Json.str "UTC")])
    rfl (by decide)

/-! ## Base-URL normalisation (C3) -/

/-- C3 (code bug): `__init__` does store `base_url` with its trailing slash
stripped, but it builds `api_url` from the *unstripped* argument, so a base
URL ending in `/` makes every composed request URL contain the double slash
`//fmerest`.  Evaluated here at `base_url = "https://example.com/"` and
endpoint `/info`. -/
theorem claim3_trailing_slash_double_slash :
    (FMEFlowClient.init "https://example.com/" "tok" true).base_url =
      "https://example.com" ∧
    (FMEFlowClient.init "https://example.com/" "tok" true).api_url =
      "https://example.com//fmerest/v3" ∧
    (FMEFlowClient.init "https://example.com/" "tok" true).composeUrl "/info" =
      "https://example.com//fmerest/v3/info" := by
  refine ⟨?_, ?_, ?_⟩ <;> decide

/-! ## URL composition and trailing slashes (C10) -/

theorem strAppend_data (a b : String) : a ++ b = String.mk (a.data ++ b.data) :=
  String.ext (by simp [String.data_append])

theorem strMk_data (s : String) : String.mk s.data = s :=
  String.ext rfl

theorem pyRstripSlash_mk_append_replicate (l : List Char) (k : Nat) :
    pyRstripSlash (String.mk (l ++ List.replicate k '/')) =
      pyRstripSlash (String.mk l) := by
  unfold pyRstripSlash
  have hdrop : List.dropWhile (fun c => c = '/') ((l ++ List.replicate k '/').reverse)
      = List.dropWhile (fun c => c = '/') l.reverse := by
    rw [List.reverse_append, List.reverse_replicate]
    induction k with
    | zero => simp
    | succ m ih => simp [List.replicate_succ, List.dropWhile_cons, ih]
  simp [hdrop]

theorem dropWhile_head?_false {p : Char → Bool} :
    ∀ (l : List Char) (a : Char), (l.dropWhile p).head? = some a → p a = false := by
  intro l
  induction l with
  | nil => intro a h; simp [List.dropWhile] at h
  | cons b t ih =>
    intro a h
    rw [List.dropWhile_cons] at h
    by_cases hb : p b
    · exact ih a (by simpa [hb] using h)
    · simp [hb] at h
      subst h
      simpa using hb

theorem pyRstripSlash_no_trailing (s : String) :
    endsWithSlash (pyRstripSlash s) = false := by
  unfold endsWithSlash pyRstripSlash
  simp only [List.getLast?_reverse]
  cases hh : (List.dropWhile (fun c => c = '/') s.data.reverse).head? with
  | none => simp [hh]
  | some a =>
    have ha := dropWhile_head?_false s.data.reverse a hh
    simp only [decide_eq_true_eq] at ha
    simp [hh]
    intro heq
    rw [heq] at ha
    simp at ha

/-- C10: the transport composes the same final URL for an endpoint and for
that endpoint followed by any number of trailing slashes (every trailing
slash of the composed URL is stripped before the request is sent), and no
composed request URL ever ends in `/`. -/
theorem claim10_trailing_slashes_irrelevant (c : FMEFlowClient) (e : String) (k : Nat) :
    c.composeUrl (e ++ String.mk (List.replicate k '/')) = c.composeUrl e ∧
    endsWithSlash (c.composeUrl e) = false := by
  constructor
  · obtain ⟨ed⟩ := e
    cases ed with
    | nil =>
      cases k with
      | zero =>
        have h0 : (String.mk ([] : List Char)) ++ String.mk (List.replicate 0 '/') =
            String.mk ([] : List Char) := String.ext (by simp [String.data_append])
        rw [h0]
      | succ m =>
        have he : (String.mk ([] : List Char)) ++ String.mk (List.replicate (m + 1) '/') =
            String.mk (List.replicate (m + 1) '/') :=
          String.ext (by simp [String.data_append])
        rw [he]
        simp only [FMEFlowClient.composeUrl]
        have h1 : startsWithSlash (String.mk (List.replicate (m + 1) '/')) = true := by
          simp [startsWithSlash, List.replicate_succ]
        have h2 : startsWithSlash (String.mk ([] : List Char)) = false := by
          simp [startsWithSlash]
        rw [h1, h2]
        simp only [if_true, Bool.false_eq_true, if_false]
        have ha : c.api_url ++ String.mk (List.replicate (m + 1) '/') =
            String.mk (c.api_url.data ++ List.replicate (m + 1) '/') :=
          String.ext (by simp [String.data_append])
        have hb : c.api_url ++ "/" ++ String.mk ([] : List Char) =
            String.mk (c.api_url.data ++ List.replicate 1 '/') :=
          String.ext (by simp [String.data_append])
        rw [ha, hb, pyRstripSlash_mk_append_replicate, pyRstripSlash_mk_append_replicate]
    | cons c0 rest =>
      have hsw : startsWithSlash (String.mk (c0 :: rest) ++ String.mk (List.replicate k '/')) =
          startsWithSlash (String.mk (c0 :: rest)) := by
        simp [startsWithSlash, strAppend_data]
      simp only [FMEFlowClient.composeUrl, hsw]
      cases hs : startsWithSlash (String.mk (c0 :: rest)) with
      | true =>
        simp only [if_true]
        have ha : c.api_url ++ (String.mk (c0 :: rest) ++ String.mk (List.replicate k '/')) =
            String.mk ((c.api_url ++ String.mk (c0 :: rest)).data ++ List.replicate k '/') :=
          String.ext (by simp [String.data_append])
        rw [ha, pyRstripSlash_mk_append_replicate, strMk_data]
      | false =>
        simp only [Bool.false_eq_true, if_false]
        have ha : c.api_url ++ "/" ++ (String.mk (c0 :: rest) ++ String.mk (List.replicate k '/')) =
            String.mk ((c.api_url ++ "/" ++ String.mk (c0 :: rest)).data ++ List.replicate k '/') :=
          String.ext (by simp [String.data_append])
        rw [ha, pyRstripSlash_mk_append_replicate, strMk_data]
  · simp only [FMEFlowClient.composeUrl]
    exact pyRstripSlash_no_trailing _

/-- Witness for C10 at a concrete endpoint: `/info`, `/info/` and `/info//`
compose to the same URL, which does not end in `/`. -/
theorem claim10_witness :
    (FMEFlowClient.init "https://fme.example" "tok" true).composeUrl
        ("/info" ++ String.mk (List.replicate 2 '/')) =
      (FMEFlowClient.init "https://fme.example" "tok" true).composeUrl "/info" ∧
    endsWithSlash
      ((FMEFlowClient.init "https://fme.example" "tok" true).composeUrl "/info") = false :=
  claim10_trailing_slashes_irrelevant
    (FMEFlowClient.init "https://fme.example" "tok" true) "/info" 2

/-! ## Workspace aggregation (C1, C9) -/

theorem WorkspaceManager.allLoop_spec (c : FMEFlowClient) (net : Net)
    (ws : String → List Json) (repos : List (List (String × Json)))
    (hname : ∀ r ∈ repos, nameIsStrOrMissing r = true)
    (hitems : ∀ r ∈ repos, ∀ s : String,
      alookup r "name" = some (Json.str s) → s ≠ "" →
      net "GET" (c.composeUrl ("/repositories/" ++ s ++ "/items"))
          [("type", "WORKSPACE")] =
        (200, Json.obj [("items", Json.arr (ws s))])) :
    ∀ (acc : List Json) (tr : List Req),
      WorkspaceManager.allLoop c net (repos.map Json.obj) acc tr =
        (Except.ok (acc ++ (repos.filterMap (fun r => (namedRepoName r).map ws)).flatten),
          tr ++ (repos.filterMap namedRepoName).map
            (fun s => ("GET", "/repositories/" ++ s ++ "/items", [("type", "WORKSPACE")]))) := by
  induction repos with
  | nil => intro acc tr; simp [WorkspaceManager.allLoop]
  | cons r rest ih =>
    intro acc tr
    have hnr : nameIsStrOrMissing r = true := hname r (by simp)
    have ihr := ih (fun x hx => hname x (by simp [hx]))
      (fun x hx => hitems x (by simp [hx]))
    cases hn : alookup r "name" with
    | none =>
      simp [WorkspaceManager.allLoop, Json.dictGet, hn, namedRepoName, ihr]
    | some nv =>
      cases nv with
      | str s =>
        by_cases hse : s = ""
        · subst hse
          simp [WorkspaceManager.allLoop, Json.dictGet, hn, Json.truthy,
            namedRepoName, ihr]
        · have hws := hitems r (by simp) s hn hse
          have hwcall : RepositoryManager.workspaces c net s tr =
              (Except.ok (Json.arr (ws s)),
                tr ++ [("GET", "/repositories/" ++ s ++ "/items", [("type", "WORKSPACE")])]) := by
            rw [RepositoryManager.workspaces,
              FMEFlowClient.http_get_ok c net ("/repositories/" ++ s ++ "/items")
                [("type", "WORKSPACE")] tr 200 (Json.obj [("items", Json.arr (ws s))])
                hws (by decide)]
            simp [Json.getItem, alookup]
          simp [WorkspaceManager.allLoop, Json.dictGet, hn, Json.truthy, hse,
            Json.fstr, hwcall, Json.pyIter, namedRepoName, ihr, List.append_assoc]
      | null => simp [nameIsStrOrMissing, hn] at hnr
      | bool b => simp [nameIsStrOrMissing, hn] at hnr
      | num n => simp [nameIsStrOrMissing, hn] at hnr
      | arr xs => simp [nameIsStrOrMissing, hn] at hnr
      | obj kvs => simp [nameIsStrOrMissing, hn] at hnr

theorem WorkspaceManager.all_spec (c : FMEFlowClient) (net : Net)
    (ws : String → List Json) (repos : List (List (String × Json)))
    (hname : ∀ r ∈ repos, nameIsStrOrMissing r = true)
    (hitems : ∀ r ∈ repos, ∀ s : String,
      alookup r "name" = some (Json.str s) → s ≠ "" →
      net "GET" (c.composeUrl ("/repositories/" ++ s ++ "/items"))
          [("type", "WORKSPACE")] =
        (200, Json.obj [("items", Json.arr (ws s))]))
    (hrepos : net "GET" (c.composeUrl "/repositories") [] =
      (200, Json.obj [("items", Json.arr (repos.map Json.obj))])) :
    WorkspaceManager.all c net [] =
      (Except.ok ((repos.filterMap (fun r => (namedRepoName r).map ws)).flatten),
        ("GET", "/repositories", ([] : List (String × String))) ::
          (repos.filterMap namedRepoName).map
            (fun s => ("GET", "/repositories/" ++ s ++ "/items", [("type", "WORKSPACE")]))) := by
  have hall : RepositoryManager.all c net [] =
      (Except.ok (Json.arr (repos.map Json.obj)),
        [("GET", "/repositories", ([] : List (String × String)))]) := by
    rw [RepositoryManager.all,
      FMEFlowClient.http_get_ok c net "/repositories" [] [] 200
        (Json.obj [("items", Json.arr (repos.map Json.obj))]) hrepos (by decide)]
    simp [Json.getItem, alookup]
  rw [WorkspaceManager.all, hall]
  simp [Json.pyIter, WorkspaceManager.allLoop_spec c net ws repos hname hitems]

/-- C1: for every repository listing of maps (with `name` a string when
present), `WorkspaceManager.all()` returns the concatenation, in
repository-listing order, of the workspace items of every repository whose
`name` is present and non-empty, contributing nothing for a repository
whose name is missing or empty. -/
theorem claim1_workspace_aggregation (c : FMEFlowClient) (net : Net)
    (ws : String → List Json) (repos : List (List (String × Json)))
    (hname : ∀ r ∈ repos, nameIsStrOrMissing r = true)
    (hitems : ∀ r ∈ repos, ∀ s : String,
      alookup r "name" = some (Json.str s) → s ≠ "" →
      net "GET" (c.composeUrl ("/repositories/" ++ s ++ "/items"))
          [("type", "WORKSPACE")] =
        (200, Json.obj [("items", Json.arr (ws s))]))
    (hrepos : net "GET" (c.composeUrl "/repositories") [] =
      (200, Json.obj [("items", Json.arr (repos.map Json.obj))])) :
    (WorkspaceManager.all c net []).1 =
      Except.ok ((repos.filterMap (fun r => (namedRepoName r).map ws)).flatten) := by
  rw [WorkspaceManager.all_spec c net ws repos hname hitems hrepos]

/-- The network of the claim's end-to-end scenario: the repositories
listing is `[{"name": "repoA"}, {"name": ""}]` and repoA's item listing is
`[{"name": "wsA", "repositoryName": "repoA"}]`. -/
def netClaim1 : Net := fun _ url _ =>
  if url = "https://fme.example/fmerest/v3/repositories" then
    (200, Json.obj [("items", Json.arr
      [Json.obj [("name", Json.str "repoA")], Json.obj [("name", Json.str "")]])])
  else if url = "https://fme.example/fmerest/v3/repositories/repoA/items" then
    (200, Json.obj [("items", Json.arr
      [Json.obj [("name", Json.str "wsA"), ("repositoryName", Json.str "repoA")]])])
  else (404, Json.null)

/-- Witness for C1: the end-to-end scenario returns exactly
`[{"name": "wsA", "repositoryName": "repoA"}]`. -/
theorem claim1_witness :
    (WorkspaceManager.all (FMEFlowClient.init "https://fme.example" "tok" true)
        netClaim1 []).1 =
      Except.ok [Json.obj [("name", Json.str "wsA"), ("repositoryName", Json.str "repoA")]] := by
  have h := claim1_workspace_aggregation
    (FMEFlowClient.init "https://fme.example" "tok" true) netClaim1
    (fun s => if s = "repoA" then
      [Json.obj [("name", Json.str "wsA"), ("repositoryName", Json.str "repoA")]] else [])
    [[("name", Json.str "repoA")], [("name", Json.str "")]]
    (by decide)
    (by
      intro r hr s hs hne
      simp only [List.mem_cons, List.mem_singleton, List.not_mem_nil, or_false] at hr
      rcases hr with rfl | rfl
      · simp only [alookup, if_pos rfl] at hs
        obtain rfl : s = "repoA" := by
          simp only [if_true] at hs
          injection hs with h1
          injection h1 with h2
          exact h2.symm
        decide
      · simp only [alookup, if_pos rfl] at hs
        obtain rfl : s = "" := by
          simp only [if_true] at hs
          injection hs with h1
          injection h1 with h2
          exact h2.symm
        exact absurd rfl hne)
    (by decide)
  simpa using h

/-- C9: for a repository listing of length `n` with `k` repositories whose
name is a non-empty string, `WorkspaceManager.all()` issues exactly `1 + k`
HTTP GET requests — one to the repositories collection and one
`/repositories/{name}/items` request with query `type=WORKSPACE` per named
repository — and none of the issued endpoints starts with `/workspaces`. -/
theorem claim9_aggregation_request_count (c : FMEFlowClient) (net : Net)
    (ws : String → List Json) (repos : List (List (String × Json)))
    (hname : ∀ r ∈ repos, nameIsStrOrMissing r = true)
    (hitems : ∀ r ∈ repos, ∀ s : String,
      alookup r "name" = some (Json.str s) → s ≠ "" →
      net "GET" (c.composeUrl ("/repositories/" ++ s ++ "/items"))
          [("type", "WORKSPACE")] =
        (200, Json.obj [("items", Json.arr (ws s))]))
    (hrepos : net "GET" (c.composeUrl "/repositories") [] =
      (200, Json.obj [("items", Json.arr (repos.map Json.obj))])) :
    (WorkspaceManager.all c net []).2 =
      ("GET", "/repositories", ([] : List (String × String))) ::
        (repos.filterMap namedRepoName).map
          (fun s => ("GET", "/repositories/" ++ s ++ "/items", [("type", "WORKSPACE")])) ∧
    (WorkspaceManager.all c net []).2.length =
      1 + (repos.filterMap namedRepoName).length ∧
    ∀ req ∈ (WorkspaceManager.all c net []).2,
      req.1 = "GET" ∧ pyStartsWith req.2.1 "/workspaces" = false := by
  rw [WorkspaceManager.all_spec c net ws repos hname hitems hrepos]
  refine ⟨rfl, by simp [Nat.add_comm], ?_⟩
  intro req hreq
  simp only [List.mem_cons, List.mem_map] at hreq
  rcases hreq with rfl | ⟨s, _, rfl⟩
  · exact ⟨rfl, by decide⟩
  · refine ⟨rfl, ?_⟩
    have hsplit : "/repositories/" ++ s ++ "/items" =
        "/repositories" ++ ("/" ++ s ++ "/items") :=
      String.ext (by simp [String.data_append])
    rw [hsplit]
    have h1 : ("/workspaces" : String).data = '/' :: 'w' :: "orkspaces".data := by decide
    have h2 : ("/repositories" : String).data = '/' :: 'r' :: "epositories".data := by decide
    simp [pyStartsWith, String.data_append, h1, h2, List.isPrefixOf]

/-- The network stub for the C9 witness: same scenario as `netClaim1` —
two listed repositories, one with a non-empty name. -/
def netClaim9 : Net := fun _ url _ =>
  if url = "https://fme.example/fmerest/v3/repositories" then
    (200, Json.obj [("items", Json.arr
      [Json.obj [("name", Json.str "repoA")], Json.obj [("name", Json.str "")]])])
  else if url = "https://fme.example/fmerest/v3/repositories/repoA/items" then
    (200, Json.obj [("items", Json.arr
      [Json.obj [("name", Json.str "wsA"), ("repositoryName", Json.str "repoA")]])])
  else (404, Json.null)

/-- Witness for C9: in that scenario there are two listed repositories, one
of them named, so exactly `1 + 1` GETs are issued and neither endpoint
starts with `/workspaces`. -/
theorem claim9_witness :
    (WorkspaceManager.all (FMEFlowClient.init "https://fme.example" "tok" true)
        netClaim9 []).2 =
      [("GET", "/repositories", ([] : List (String × String))),
        ("GET", "/repositories/repoA/items", [("type", "WORKSPACE")])] ∧
    (WorkspaceManager.all (FMEFlowClient.init "https://fme.example" "tok" true)
        netClaim9 []).2.length = 2 := by
  have h := claim9_aggregation_request_count
    (FMEFlowClient.init "https://fme.example" "tok" true) netClaim9
    (fun s => if s = "repoA" then
      [Json.obj [("name", Json.str "wsA"), ("repositoryName", Json.str "repoA")]] else [])
    [[("name", Json.str "repoA")], [("name", Json.str "")]]
    (by decide)
    (by
      intro r hr s hs hne
      simp only [List.mem_cons, List.mem_singleton, List.not_mem_nil, or_false] at hr
      rcases hr with rfl | rfl
      · simp only [alookup, if_pos rfl] at hs
        obtain rfl : s = "repoA" := by
          simp only [if_true] at hs
          injection hs with h1
          injection h1 with h2
          exact h2.symm
        decide
      · simp only [alookup, if_pos rfl] at hs
        obtain rfl : s = "" := by
          simp only [if_true] at hs
          injection hs with h1
          injection h1 with h2
          exact h2.symm
        exact absurd rfl hne)
    (by decide)
  refine ⟨by simpa using h.1, by simpa using h.2.1⟩

/-! ## `for_user` filtering (C4) -/

theorem filterByUserName_filter (u : String) :
    ∀ (items : List Json), (∀ r ∈ items, r.isObj = true) →
      filterByUserName u items = Except.ok (items.filter (matchesUserName u)) := by
  intro items
  induction items with
  | nil => intro _; rfl
  | cons r rest ih =>
    intro h
    have hr : r.isObj = true := h r (by simp)
    have ihr := ih (fun x hx => h x (by simp [hx]))
    cases r with
    | obj kvs =>
      by_cases hm : alookup kvs "userName" = some (Json.str u) <;>
        simp [filterByUserName, Json.dictGet, ihr, List.filter_cons,
          matchesUserName, hm]
    | null => simp [Json.isObj] at hr
    | bool b => simp [Json.isObj] at hr
    | num n => simp [Json.isObj] at hr
    | str s => simp [Json.isObj] at hr
    | arr xs => simp [Json.isObj] at hr

/-- C4: for every username `u`, each `for_user(u)` — automations, projects,
workspaces — returns exactly the sublist of the records returned by the
corresponding `all()` whose `userName` field equals `u`, preserving the
relative order of `all()`; when no record matches, the result is the empty
list. -/
theorem claim4_for_user_filters (c : FMEFlowClient) (net : Net) (u : String)
    (autoItems projItems : List Json)
    (ws : String → List Json) (repos : List (List (String × Json))) :
    (net "GET" (c.composeUrl "/automations/workflows") [] =
        (200, Json.obj [("items", Json.arr autoItems)]) →
      (∀ r ∈ autoItems, r.isObj = true) →
      (AutomationsManager.for_user c net u []).1 =
        Except.ok (autoItems.filter (matchesUserName u)) ∧
      ((∀ r ∈ autoItems, matchesUserName u r = false) →
        (AutomationsManager.for_user c net u []).1 = Except.ok [])) ∧
    (net "GET" (c.composeUrl "/projects/projects") [] =
        (200, Json.obj [("items", Json.arr projItems)]) →
      (∀ r ∈ projItems, r.isObj = true) →
      (ProjectManager.for_user c net u []).1 =
        Except.ok (projItems.filter (matchesUserName u)) ∧
      ((∀ r ∈ projItems, matchesUserName u r = false) →
        (ProjectManager.for_user c net u []).1 = Except.ok [])) ∧
    ((∀ r ∈ repos, nameIsStrOrMissing r = true) →
      (∀ r ∈ repos, ∀ s : String,
        alookup r "name" = some (Json.str s) → s ≠ "" →
        net "GET" (c.composeUrl ("/repositories/" ++ s ++ "/items"))
            [("type", "WORKSPACE")] =
          (200, Json.obj [("items", Json.arr (ws s))])) →
      net "GET" (c.composeUrl "/repositories") [] =
        (200, Json.obj [("items", Json.arr (repos.map Json.obj))]) →
      (∀ r ∈ (repos.filterMap (fun r => (namedRepoName r).map ws)).flatten,
        r.isObj = true) →
      (WorkspaceManager.for_user c net u []).1 =
        Except.ok
          (((repos.filterMap (fun r => (namedRepoName r).map ws)).flatten).filter
            (matchesUserName u)) ∧
      ((∀ r ∈ (repos.filterMap (fun r => (namedRepoName r).map ws)).flatten,
          matchesUserName u r = false) →
        (WorkspaceManager.for_user c net u []).1 = Except.ok [])) := by
  refine ⟨fun h hobj => ?_, fun h hobj => ?_, fun hname hitems hrepos hobj => ?_⟩
  · have hall : AutomationsManager.all c net [] =
        (Except.ok (Json.arr autoItems),
          [("GET", "/automations/workflows", ([] : List (String × String)))]) := by
      rw [AutomationsManager.all,
        FMEFlowClient.http_get_ok c net "/automations/workflows" [] [] 200
          (Json.obj [("items", Json.arr autoItems)]) h (by decide)]
      simp [Json.getItem, alookup]
    have hmain : (AutomationsManager.for_user c net u []).1 =
        Except.ok (autoItems.filter (matchesUserName u)) := by
      rw [AutomationsManager.for_user, hall]
      simp [Json.pyIter, filterByUserName_filter u autoItems hobj]
    refine ⟨hmain, fun hnone => ?_⟩
    rw [hmain]
    have hz : autoItems.filter (matchesUserName u) = [] :=
      List.filter_eq_nil_iff.mpr (fun a ha => by simp [hnone a ha])
    rw [hz]
  · have hall : ProjectManager.all c net [] =
        (Except.ok (Json.arr projItems),
          [("GET", "/projects/projects", ([] : List (String × String)))]) := by
      rw [ProjectManager.all,
        FMEFlowClient.http_get_ok c net "/projects/projects" [] [] 200
          (Json.obj [("items", Json.arr projItems)]) h (by decide)]
      simp [Json.getItem, alookup]
    have hmain : (ProjectManager.for_user c net u []).1 =
        Except.ok (projItems.filter (matchesUserName u)) := by
      rw [ProjectManager.for_user, hall]
      simp [Json.pyIter, filterByUserName_filter u projItems hobj]
    refine ⟨hmain, fun hnone => ?_⟩
    rw [hmain]
    have hz : projItems.filter (matchesUserName u) = [] :=
      List.filter_eq_nil_iff.mpr (fun a ha => by simp [hnone a ha])
    rw [hz]
  · have hmain : (WorkspaceManager.for_user c net u []).1 =
        Except.ok
          (((repos.filterMap (fun r => (namedRepoName r).map ws)).flatten).filter
            (matchesUserName u)) := by
      rw [WorkspaceManager.for_user,
        WorkspaceManager.all_spec c net ws repos hname hitems hrepos]
      simp [filterByUserName_filter u _ hobj]
    refine ⟨hmain, fun hnone => ?_⟩
    rw [hmain]
    have hz : ((repos.filterMap (fun r => (namedRepoName r).map ws)).flatten).filter
        (matchesUserName u) = [] :=
      List.filter_eq_nil_iff.mpr (fun a ha => by simp [hnone a ha])
    rw [hz]

/-- The network stub for the C4 witness: two automation workflows owned by
different users. -/
def netClaim4 : Net := fun _ url _ =>
  if url = "https://fme.example/fmerest/v3/automations/workflows" then
    (200, Json.obj [("items", Json.arr
      [Json.obj [("name", Json.str "wfA"), ("userName", Json.str "alice")],
       Json.obj [("name", Json.str "wfB"), ("userName", Json.str "bob")]])])
  else (404, Json.null)

/-- Witness for C4: `automations.for_user("alice")` keeps exactly the
record owned by alice, and `for_user("carol")` is empty. -/
theorem claim4_witness :
    (AutomationsManager.for_user (FMEFlowClient.init "https://fme.example" "tok" true)
        netClaim4 "alice" []).1 =
      Except.ok [Json.obj [("name", Json.str "wfA"), ("userName", Json.str "alice")]] ∧
    (AutomationsManager.for_user (FMEFlowClient.init "https://fme.example" "tok" true)
        netClaim4 "carol" []).1 = Except.ok [] := by
  constructor
  · have h := ((claim4_for_user_filters
      (FMEFlowClient.init "https://fme.example" "tok" true) netClaim4 "alice"
      [Json.obj [("name", Json.str "wfA"), ("userName", Json.str "alice")],
       Json.obj [("name", Json.str "wfB"), ("userName", Json.str "bob")]]
      [] (fun _ => []) []).1) rfl (by decide)
    rw [h.1]
    decide
  · have h := ((claim4_for_user_filters
      (FMEFlowClient.init "https://fme.example" "tok" true) netClaim4 "carol"
      [Json.obj [("name", Json.str "wfA"), ("userName", Json.str "alice")],
       Json.obj [("name", Json.str "wfB"), ("userName", Json.str "bob")]]
      [] (fun _ => []) []).1) rfl (by decide)
    exact h.2 (by decide)
